import Mathlib

/-!
Verification development for the zotclip clipboard reformatter.

The program watches the OS clipboard, recognises Zotero citation strings with
an anchored regular expression, and rewrites them according to a persisted
output mode.  The definitions below are a shallow embedding of the Python
sources:

* `zoteroMatchL` embeds `ClipboardFormatter.ZOTERO_PATTERN`
  (`^"?([^"\n]+?)"?\s*\(\[.*?\]\(.*?\)\)\s*\(\[.*?\]\((.+?)\)\)$` with
  `re.DOTALL`) as a continuation-passing backtracking matcher that explores
  alternatives in exactly the order Python's `re` engine does (greedy `?`
  and `*` consume first and backtrack; lazy `+?`, `*?` consume last), so the
  first success is the Python match with the same captured groups.  `$` is
  embedded with Python semantics: it accepts the end of the string or a
  position just before a single final newline.
* `quotesMatchL` embeds `ClipboardFormatter.QUOTES_PATTERN`
  (no DOTALL, so its dot excludes the newline character).
* `reformat`, `processClipboard` embed `ClipboardFormatter.reformat` and
  `ClipboardFormatter.process_clipboard`; the clipboard itself and the
  registered callbacks are explicit parameters, a callback being a function
  that either returns or raises (`Except`), and a failed clipboard write
  being the `writeOk = false` environment.
* `Json`, `loadConfig`, `getMode` embed `Config._load_config` and
  `Config.get_mode`; `getMode` returns `Except PyError OutputMode` because
  calling `.get` on a non-dict raises `AttributeError` in Python.
-/

namespace ZotClip

/-- Whitespace characters matched by Python's `\s` (for `str` patterns) and
stripped by `str.strip()`. -/
def isPySpace (c : Char) : Bool :=
  c == ' ' || c == '\t' || c == '\n' || c == '\r' || c == '\x0b' ||
  c == '\x0c' || c == '\x1c' || c == '\x1d' || c == '\x1e' || c == '\x1f' ||
  c == '\x85' || c == '\xa0' || c == '\u1680' || c == '\u2000' ||
  c == '\u2001' || c == '\u2002' || c == '\u2003' || c == '\u2004' ||
  c == '\u2005' || c == '\u2006' || c == '\u2007' || c == '\u2008' ||
  c == '\u2009' || c == '\u200a' || c == '\u2028' || c == '\u2029' ||
  c == '\u202f' || c == '\u205f' || c == '\u3000'

/-- The character class `[^"\n]` of the title capture group. -/
def titleOk (c : Char) : Bool := !(c == '"') && !(c == '\n')

/-- The class of `.` under `re.DOTALL`: every character. -/
def anyChar (_ : Char) : Bool := true

/-- First-success choice between two alternatives of a backtracking search. -/
def firstOf (a b : Option α) : Option α :=
  match a with
  | some x => some x
  | none => b

/-- One character from a class, then the continuation (a literal is the
singleton class). -/
def clsOne (p : Char → Bool) (k : List Char → Option α) : List Char → Option α
  | [] => none
  | x :: rs => if p x then k rs else none

/-- Greedy `X?`: consume a class character first, fall back to consuming
nothing. -/
def greedyOpt (p : Char → Bool) (k : List Char → Option α) : List Char → Option α
  | [] => k []
  | x :: rs => if p x then firstOf (k rs) (k (x :: rs)) else k (x :: rs)

/-- Greedy `X*`: consume as many class characters as possible first,
backtracking one at a time. -/
def greedyStar (p : Char → Bool) (k : List Char → Option α) : List Char → Option α
  | [] => k []
  | x :: rs => if p x then firstOf (greedyStar p k rs) (k (x :: rs)) else k (x :: rs)

/-- Lazy `X*?`: try the continuation first, consume a class character only on
failure. -/
def lazyStar (p : Char → Bool) (k : List Char → Option α) : List Char → Option α
  | [] => k []
  | x :: rs => firstOf (k (x :: rs)) (if p x then lazyStar p k rs else none)

/-- Worker for lazy `(X+?)`: `acc` is the capture so far; try the continuation
on it before extending it by one more class character. -/
def lazyPlusCapGo (p : Char → Bool) (k : List Char → List Char → Option α) :
    List Char → List Char → Option α
  | acc, [] => k acc []
  | acc, x :: rs =>
    firstOf (k acc (x :: rs)) (if p x then lazyPlusCapGo p k (acc ++ [x]) rs else none)

/-- Lazy captured `(X+?)`: at least one class character, extended one at a
time, handing the capture to the continuation. -/
def lazyPlusCap (p : Char → Bool) (k : List Char → List Char → Option α) :
    List Char → Option α
  | [] => none
  | x :: rs => if p x then lazyPlusCapGo p k [x] rs else none

/-! The Zotero citation pattern, stage by stage from the end of the regex
backwards; `t` is the captured title, `l` the captured link. -/

/-- Python `$`: succeeds at the end of the string or just before one final
newline, returning the two captures. -/
def zEnd (t l : List Char) : List Char → Option (List Char × List Char) :=
  fun r => if r = [] ∨ r = ['\n'] then some (t, l) else none

/-- The closing `\)\)$` after the captured link. -/
def zAfterG2 (t l : List Char) : List Char → Option (List Char × List Char) :=
  clsOne (· == ')') (clsOne (· == ')') (zEnd t l))

/-- The captured link target `(.+?)` of the second bracketed group. -/
def zG2 (t : List Char) : List Char → Option (List Char × List Char) :=
  lazyPlusCap anyChar (zAfterG2 t)

/-- `\]\(` between the second bracket text and the captured link. -/
def zMid2 (t : List Char) : List Char → Option (List Char × List Char) :=
  clsOne (· == ']') (clsOne (· == '(') (zG2 t))

/-- The discarded bracket text `.*?` of the second group. -/
def zInner2 (t : List Char) : List Char → Option (List Char × List Char) :=
  lazyStar anyChar (zMid2 t)

/-- `\(\[` opening the second bracketed group. -/
def zGrp2 (t : List Char) : List Char → Option (List Char × List Char) :=
  clsOne (· == '(') (clsOne (· == '[') (zInner2 t))

/-- The `\s*` between the two bracketed groups. -/
def zWs2 (t : List Char) : List Char → Option (List Char × List Char) :=
  greedyStar isPySpace (zGrp2 t)

/-- The closing `\)\)` of the first bracketed group. -/
def zClose1 (t : List Char) : List Char → Option (List Char × List Char) :=
  clsOne (· == ')') (clsOne (· == ')') (zWs2 t))

/-- The discarded link target `.*?` of the first group. -/
def zTarget1 (t : List Char) : List Char → Option (List Char × List Char) :=
  lazyStar anyChar (zClose1 t)

/-- `\]\(` inside the first bracketed group. -/
def zMid1 (t : List Char) : List Char → Option (List Char × List Char) :=
  clsOne (· == ']') (clsOne (· == '(') (zTarget1 t))

/-- The discarded bracket text `.*?` of the first group. -/
def zInner1 (t : List Char) : List Char → Option (List Char × List Char) :=
  lazyStar anyChar (zMid1 t)

/-- `\(\[` opening the first bracketed group. -/
def zGrp1 (t : List Char) : List Char → Option (List Char × List Char) :=
  clsOne (· == '(') (clsOne (· == '[') (zInner1 t))

/-- The `\s*` after the title and its optional closing quote. -/
def zWs1 (t : List Char) : List Char → Option (List Char × List Char) :=
  greedyStar isPySpace (zGrp1 t)

/-- The optional closing `"?` after the title. -/
def zCloseQ (t : List Char) : List Char → Option (List Char × List Char) :=
  greedyOpt (· == '"') (zWs1 t)

/-- The captured title `([^"\n]+?)`. -/
def zTitle : List Char → Option (List Char × List Char) :=
  lazyPlusCap titleOk zCloseQ

/-- `ClipboardFormatter.ZOTERO_PATTERN.match`: the whole anchored pattern,
starting with the optional opening `"?`. -/
def zoteroMatchL : List Char → Option (List Char × List Char) :=
  greedyOpt (· == '"') zTitle

/-- `ClipboardFormatter.matches_zotero_format`. -/
def matchesZoteroFormat (s : String) : Bool :=
  (zoteroMatchL s.data).isSome

/-! The quote-stripping pattern
`^["'“‘](.+?)["'”’]$` (no DOTALL). -/

/-- Opening-quote class of `QUOTES_PATTERN`: straight double, straight
single, curly opening double, curly opening single. -/
def isOpenQ (c : Char) : Bool := c == '"' || c == '\'' || c == '“' || c == '‘'

/-- Closing-quote class of `QUOTES_PATTERN`: straight double, straight
single, curly closing double, curly closing single. -/
def isCloseQ (c : Char) : Bool := c == '"' || c == '\'' || c == '”' || c == '’'

/-- The class of `.` without DOTALL: anything but a newline. -/
def notNL (c : Char) : Bool := !(c == '\n')

/-- Python `$` for the quote pattern, returning the captured interior. -/
def qEnd (mid : List Char) : List Char → Option (List Char) :=
  fun r => if r = [] ∨ r = ['\n'] then some mid else none

/-- Closing-quote class applied after the captured interior. -/
def qClose (mid : List Char) : List Char → Option (List Char) :=
  clsOne isCloseQ (qEnd mid)

/-- `ClipboardFormatter.QUOTES_PATTERN.match`. -/
def quotesMatchL : List Char → Option (List Char) :=
  clsOne isOpenQ (lazyPlusCap notNL qClose)

/-- Python `str.strip()`. -/
def pyStrip (s : String) : String :=
  ⟨((s.data.dropWhile isPySpace).reverse.dropWhile isPySpace).reverse⟩

/-- The quote-stripping step of `reformat`: replace the title by the capture
when `QUOTES_PATTERN` matches, keep it unchanged otherwise. -/
def cleanTitle (s : String) : String :=
  match quotesMatchL s.data with
  | some mid => ⟨mid⟩
  | none => s

/-! The preference store (`config.py`). -/

/-- `OutputMode` of `config.py`: `plainText` is `PLAIN_TEXT`
(`"plain_text"`), `markdownReference` is `MARKDOWN_REFERENCE`
(`"markdown_reference"`). -/
inductive OutputMode where
  | plainText
  | markdownReference
deriving DecidableEq

/-- A JSON value, as `json.load` can produce for the preference file. -/
inductive Json where
  | null
  | bool (b : Bool)
  | num (n : Int)
  | str (s : String)
  | arr (xs : List Json)
  | obj (kvs : List (String × Json))

/-- On-disk states of the preference file that `_load_config`
distinguishes: missing, raising `IOError`, raising `JSONDecodeError`, or
holding some JSON value. -/
inductive PrefFile where
  | absent
  | unreadable
  | malformedJson
  | stored (j : Json)

/-- The default configuration `{'mode': OutputMode.PLAIN_TEXT.value}`. -/
def defaultConfig : Json := .obj [("mode", .str "plain_text")]

/-- `Config._load_config`: the stored JSON value when the file exists and
parses, the default dict otherwise. -/
def loadConfig : PrefFile → Json
  | .stored j => j
  | _ => defaultConfig

/-- The Python exception that escapes `Config.get_mode`. -/
inductive PyError where
  | attributeError
deriving DecidableEq

/-- Python `dict.get key default` on the dict `json.load` built (later
duplicate keys override earlier ones). -/
def dictGet (kvs : List (String × Json)) (key : String) (dflt : Json) : Json :=
  match kvs.reverse.find? (fun p => p.1 == key) with
  | some p => p.2
  | none => dflt

/-- `OutputMode(value)`: `none` models the `ValueError` raised when the
value is not one of the two member values. -/
def parseOutputMode : Json → Option OutputMode
  | .str s =>
    if s = "plain_text" then some .plainText
    else if s = "markdown_reference" then some .markdownReference
    else none
  | _ => none

/-- `Config.get_mode`: reads the `mode` key with default `"plain_text"`,
converts with `OutputMode(...)` catching `ValueError` to `PLAIN_TEXT`.
When the loaded config is not a dict, the `.get` attribute access raises
`AttributeError`, which nothing catches. -/
def getMode (f : PrefFile) : Except PyError OutputMode :=
  match loadConfig f with
  | .obj kvs =>
    match parseOutputMode (dictGet kvs "mode" (.str "plain_text")) with
    | some m => .ok m
    | none => .ok .plainText
  | _ => .error .attributeError

/-! The reformatting engine (`clipboard.py`). -/

/-- `ClipboardFormatter.reformat`, with the mode `Config.get_mode` returned
passed explicitly.  The final `none` mirrors the fallthrough `return None`
after the two mode tests in the source. -/
def reformat (mode : OutputMode) (text : String) : Option String :=
  match zoteroMatchL text.data with
  | none => none
  | some (t, l) =>
    let title := cleanTitle (pyStrip ⟨t⟩)
    let pdfLink := pyStrip ⟨l⟩
    if mode = OutputMode.plainText then some title
    else if mode = OutputMode.markdownReference then
      some ("[" ++ title ++ "](" ++ pdfLink ++ ")")
    else none

/-- A registered callback: called with `(original, reformatted)`, and either
returns or raises (`Except.error` carries the exception message). -/
def Callback : Type := String → String → Except String Unit

/-- The notification loop of `process_clipboard`: each callback is invoked
in registration order inside `try/except`, so a raised exception is
recorded in the trace and the loop continues with the next callback. -/
def runCallbacks (cbs : List Callback) (orig trans : String) :
    List (String × String × Except String Unit) :=
  match cbs with
  | [] => []
  | cb :: rest => (orig, trans, cb orig trans) :: runCallbacks rest orig trans

/-- Engine state: `last` is `_last_clipboard_content`, `clip` the OS
clipboard text (`none` when the clipboard holds no text). -/
structure PState where
  last : String
  clip : Option String
deriving DecidableEq

/-- Outcome of one `process_clipboard` invocation, labelled as the spec
names the code paths: early return and no-write paths are `unchanged`, the
failed-recognition path is `notACitation`, the write-back path is
`reformatted original transformed`. -/
inductive Outcome where
  | unchanged
  | notACitation
  | reformatted (original transformed : String)
deriving DecidableEq

/-- `ClipboardFormatter.process_clipboard`.  `writeOk` tells whether the OS
clipboard write succeeds; on failure `set_clipboard_text` catches the
exception, prints an error and returns, so the caller continues unaware:
the returned `Bool` is true when that error was logged.  The last component
is the callback-invocation trace. -/
def processClipboard (mode : OutputMode) (writeOk : Bool) (cbs : List Callback)
    (st : PState) :
    Outcome × PState × Bool × List (String × String × Except String Unit) :=
  match st.clip with
  | none => (.unchanged, st, false, [])
  | some cur =>
    if cur = "" ∨ cur = st.last then (.unchanged, st, false, [])
    else
      let st1 : PState := { last := cur, clip := st.clip }
      if matchesZoteroFormat cur then
        match reformat mode cur with
        | some ref =>
          if ref ≠ "" ∧ ref ≠ cur then
            let wr : Option String × Bool :=
              if writeOk then (some ref, false) else (st1.clip, true)
            (.reformatted cur ref, { last := ref, clip := wr.1 }, wr.2,
              runCallbacks cbs cur ref)
          else (.unchanged, st1, false, [])
        | none => (.unchanged, st1, false, [])
      else (.notACitation, st1, false, [])

/-- Example 1 input of the spec. -/
def ex1 : String :=
  "\"loss-free balance routing\" ([Team et al., 2025, p. 2](zotero://select/library/items/UVG6GBGT)) ([pdf](zotero://open-pdf/library/items/NUG9I57I?page=2&annotation=FIFCZW5L))"

/-- The pdf link of Example 1. -/
def ex1Link : String :=
  "zotero://open-pdf/library/items/NUG9I57I?page=2&annotation=FIFCZW5L"

/-- An observer that returns normally. -/
def goodCb : Callback := fun _ _ => .ok ()

/-- An observer that raises. -/
def badCb : Callback := fun _ _ => .error "boom"

/-! Helper lemmas about the backtracking combinators: every success of a
combinator comes from a success of its continuation on a suffix of the
input, with class-valid captures. -/


lemma firstOf_eq_some {α} {a b : Option α} {r : α} (h : firstOf a b = some r) :
    a = some r ∨ b = some r := by
  cases a with
  | some x => exact Or.inl (by simpa [firstOf] using h)
  | none => exact Or.inr (by simpa [firstOf] using h)

lemma clsOne_out {α} {p : Char → Bool} {k : List Char → Option α}
    {rest : List Char} {r : α} (h : clsOne p k rest = some r) :
    ∃ x rs, rest = x :: rs ∧ p x = true ∧ k rs = some r := by
  cases rest with
  | nil => simp [clsOne] at h
  | cons x rs =>
    by_cases hp : p x
    · exact ⟨x, rs, rfl, hp, by simpa [clsOne, hp] using h⟩
    · simp [clsOne, hp] at h

lemma greedyOpt_out {α} {p : Char → Bool} {k : List Char → Option α}
    {rest : List Char} {r : α} (h : greedyOpt p k rest = some r) :
    ∃ rs, rs <:+ rest ∧ k rs = some r := by
  cases rest with
  | nil => exact ⟨[], List.suffix_refl _, by simpa [greedyOpt] using h⟩
  | cons x rs =>
    by_cases hp : p x
    · simp only [greedyOpt, hp, if_true] at h
      rcases firstOf_eq_some h with h1 | h1
      · exact ⟨rs, List.suffix_cons x rs, h1⟩
      · exact ⟨x :: rs, List.suffix_refl _, h1⟩
    · exact ⟨x :: rs, List.suffix_refl _, by simpa [greedyOpt, hp] using h⟩

lemma greedyStar_out {α} {p : Char → Bool} {k : List Char → Option α} :
    ∀ {rest : List Char} {r : α}, greedyStar p k rest = some r →
      ∃ rs, rs <:+ rest ∧ k rs = some r := by
  intro rest
  induction rest with
  | nil => exact fun h => ⟨[], List.suffix_refl _, by simpa [greedyStar] using h⟩
  | cons x rs ih =>
    intro r h
    by_cases hp : p x
    · simp only [greedyStar, hp, if_true] at h
      rcases firstOf_eq_some h with h1 | h1
      · rcases ih h1 with ⟨u, hu, hk⟩
        exact ⟨u, hu.trans (List.suffix_cons x rs), hk⟩
      · exact ⟨x :: rs, List.suffix_refl _, h1⟩
    · exact ⟨x :: rs, List.suffix_refl _, by simpa [greedyStar, hp] using h⟩

lemma lazyStar_out {α} {p : Char → Bool} {k : List Char → Option α} :
    ∀ {rest : List Char} {r : α}, lazyStar p k rest = some r →
      ∃ rs, rs <:+ rest ∧ k rs = some r := by
  intro rest
  induction rest with
  | nil => exact fun h => ⟨[], List.suffix_refl _, by simpa [lazyStar] using h⟩
  | cons x rs ih =>
    intro r h
    simp only [lazyStar] at h
    rcases firstOf_eq_some h with h1 | h1
    · exact ⟨x :: rs, List.suffix_refl _, h1⟩
    · by_cases hp : p x
      · rw [if_pos hp] at h1
        rcases ih h1 with ⟨u, hu, hk⟩
        exact ⟨u, hu.trans (List.suffix_cons x rs), hk⟩
      · rw [if_neg hp] at h1
        exact absurd h1 (by simp)

lemma lazyPlusCapGo_out {α} {p : Char → Bool}
    {k : List Char → List Char → Option α} :
    ∀ {rest acc : List Char} {r : α}, acc.all p = true →
      lazyPlusCapGo p k acc rest = some r →
      ∃ acc2 rs, rs <:+ rest ∧ acc2.all p = true ∧ k acc2 rs = some r := by
  intro rest
  induction rest with
  | nil =>
    intro acc r hacc h
    exact ⟨acc, [], List.suffix_refl _, hacc, by simpa [lazyPlusCapGo] using h⟩
  | cons x rs ih =>
    intro acc r hacc h
    simp only [lazyPlusCapGo] at h
    rcases firstOf_eq_some h with h1 | h1
    · exact ⟨acc, x :: rs, List.suffix_refl _, hacc, h1⟩
    · by_cases hp : p x
      · rw [if_pos hp] at h1
        have hacc2 : (acc ++ [x]).all p = true := by
          simp [List.all_append, List.all_eq_true] at hacc ⊢
          exact ⟨hacc, hp⟩
        rcases ih hacc2 h1 with ⟨a2, u, hu, ha2, hk⟩
        exact ⟨a2, u, hu.trans (List.suffix_cons x rs), ha2, hk⟩
      · rw [if_neg hp] at h1
        exact absurd h1 (by simp)

lemma lazyPlusCap_out {α} {p : Char → Bool}
    {k : List Char → List Char → Option α} {rest : List Char} {r : α}
    (h : lazyPlusCap p k rest = some r) :
    ∃ acc rs, rs <:+ rest ∧ acc.all p = true ∧ k acc rs = some r := by
  cases rest with
  | nil => simp [lazyPlusCap] at h
  | cons x rs =>
    by_cases hp : p x
    · simp only [lazyPlusCap, hp, if_true] at h
      rcases lazyPlusCapGo_out (by simp [hp]) h with ⟨a2, u, hu, ha2, hk⟩
      exact ⟨a2, u, hu.trans (List.suffix_cons x rs), ha2, hk⟩
    · simp [lazyPlusCap, hp] at h

/-- Anatomy of a successful Zotero match: the captured title consists of
title-class characters only (so no straight double-quote and no newline),
and the input ends with `))` or with `))` followed by one newline. -/
lemma zoteroMatchL_out {s t l : List Char}
    (h : zoteroMatchL s = some (t, l)) :
    t.all titleOk = true ∧ ([')', ')'] <:+ s ∨ [')', ')', '\n'] <:+ s) := by
  unfold zoteroMatchL at h
  rcases greedyOpt_out h with ⟨s1, c1, h1⟩
  unfold zTitle at h1
  rcases lazyPlusCap_out h1 with ⟨tt, s2, c2, htt, h2⟩
  unfold zCloseQ at h2
  rcases greedyOpt_out h2 with ⟨s3, c3, h3⟩
  unfold zWs1 at h3
  rcases greedyStar_out h3 with ⟨s4, c4, h4⟩
  unfold zGrp1 at h4
  rcases clsOne_out h4 with ⟨x1, s5, e5, _, h5⟩
  rcases clsOne_out h5 with ⟨x2, s6, e6, _, h6⟩
  unfold zInner1 at h6
  rcases lazyStar_out h6 with ⟨s7, c7, h7⟩
  unfold zMid1 at h7
  rcases clsOne_out h7 with ⟨x3, s8, e8, _, h8⟩
  rcases clsOne_out h8 with ⟨x4, s9, e9, _, h9⟩
  unfold zTarget1 at h9
  rcases lazyStar_out h9 with ⟨s10, c10, h10⟩
  unfold zClose1 at h10
  rcases clsOne_out h10 with ⟨x5, s11, e11, _, h11⟩
  rcases clsOne_out h11 with ⟨x6, s12, e12, _, h12⟩
  unfold zWs2 at h12
  rcases greedyStar_out h12 with ⟨s13, c13, h13⟩
  unfold zGrp2 at h13
  rcases clsOne_out h13 with ⟨x7, s14, e14, _, h14⟩
  rcases clsOne_out h14 with ⟨x8, s15, e15, _, h15⟩
  unfold zInner2 at h15
  rcases lazyStar_out h15 with ⟨s16, c16, h16⟩
  unfold zMid2 at h16
  rcases clsOne_out h16 with ⟨x9, s17, e17, _, h17⟩
  rcases clsOne_out h17 with ⟨x10, s18, e18, _, h18⟩
  unfold zG2 at h18
  rcases lazyPlusCap_out h18 with ⟨ll, s19, c19, _, h19⟩
  unfold zAfterG2 at h19
  rcases clsOne_out h19 with ⟨y1, s20, e20, hy1, h20⟩
  rcases clsOne_out h20 with ⟨y2, s21, e21, hy2, h21⟩
  unfold zEnd at h21
  by_cases hend : s21 = [] ∨ s21 = ['\n']
  · rw [if_pos hend] at h21
    have hpair := Option.some.inj h21
    have het : tt = t := congrArg Prod.fst hpair
    subst het
    refine ⟨htt, ?_⟩
    have hy1' : y1 = ')' := by simpa using hy1
    have hy2' : y2 = ')' := by simpa using hy2
    have hs19 : s19 <:+ s := by
      subst e5 e6 e8 e9 e11 e12 e14 e15 e17 e18
      have u1 : s18 <:+ x9 :: x10 :: s18 :=
        (List.suffix_cons x10 s18).trans (List.suffix_cons x9 (x10 :: s18))
      have u2 : s15 <:+ x7 :: x8 :: s15 :=
        (List.suffix_cons x8 s15).trans (List.suffix_cons x7 (x8 :: s15))
      have u3 : s12 <:+ x5 :: x6 :: s12 :=
        (List.suffix_cons x6 s12).trans (List.suffix_cons x5 (x6 :: s12))
      have u4 : s9 <:+ x3 :: x4 :: s9 :=
        (List.suffix_cons x4 s9).trans (List.suffix_cons x3 (x4 :: s9))
      have u5 : s6 <:+ x1 :: x2 :: s6 :=
        (List.suffix_cons x2 s6).trans (List.suffix_cons x1 (x2 :: s6))
      exact c19.trans <| (u1.trans c16).trans <| (u2.trans c13).trans <|
        (u3.trans c10).trans <| (u4.trans c7).trans <| (u5.trans c4).trans <|
        c3.trans <| c2.trans c1
    rcases hend with hnil | hnl
    · subst hnil
      left
      have e19 : s19 = [')', ')'] := by rw [e20, e21, hy1', hy2']
      exact e19 ▸ hs19
    · subst hnl
      right
      have e19 : s19 = [')', ')', '\n'] := by rw [e20, e21, hy1', hy2']
      exact e19 ▸ hs19
  · rw [if_neg hend] at h21
    exact absurd h21 (by simp)


lemma isCloseQ_ne_newline {c : Char} (h : isCloseQ c = true) : c ≠ '\n' := by
  intro he
  rw [he] at h
  exact absurd h (by decide)

/-- Inside the quote pattern, the lazy capture scans exactly up to a final
closing-quote character: no interior position can satisfy the anchored
closing class, so the capture is everything strictly between the quotes. -/
lemma qStripGo (c : Char) (hc : isCloseQ c = true) :
    ∀ (rest acc : List Char), (∀ x ∈ rest, x ≠ '\n') →
      lazyPlusCapGo notNL qClose acc (rest ++ [c]) = some (acc ++ rest) := by
  intro rest
  induction rest with
  | nil =>
    intro acc _
    have hq : qClose acc [c] = some acc := by
      simp [qClose, clsOne, hc, qEnd]
    simp [lazyPlusCapGo, firstOf, hq]
  | cons x rs ih =>
    intro acc hnl
    have hxne : x ≠ '\n' := hnl x (List.mem_cons_self x rs)
    have hnl' : ∀ y ∈ rs, y ≠ '\n' := fun y hy => hnl y (List.mem_cons_of_mem x hy)
    have hq : qClose acc (x :: (rs ++ [c])) = none := by
      by_cases hx : isCloseQ x
      · have h1 : rs ++ [c] ≠ [] := by simp
        have h2 : rs ++ [c] ≠ ['\n'] := by
          intro he
          cases rs with
          | nil =>
            simp at he
            exact isCloseQ_ne_newline hc he
          | cons z zs => simp at he
        simp [qClose, clsOne, hx, qEnd, h1, h2]
      · simp [qClose, clsOne, hx]
    have hnx : notNL x = true := by simp [notNL, hxne]
    have hstep : ((x :: rs) ++ [c]) = x :: (rs ++ [c]) := rfl
    rw [hstep]
    simp only [lazyPlusCapGo, hq, firstOf, hnx, if_true]
    rw [ih (acc ++ [x]) hnl']
    simp

lemma runCallbacks_eq_map (cbs : List Callback) (o t : String) :
    runCallbacks cbs o t = cbs.map (fun cb => (o, t, cb o t)) := by
  induction cbs with
  | nil => rfl
  | cons cb rest ih => simp [runCallbacks, ih]

lemma runCallbacks_length (cbs : List Callback) (o t : String) :
    (runCallbacks cbs o t).length = cbs.length := by
  rw [runCallbacks_eq_map]
  simp

lemma reformat_match_isSome {mode : OutputMode} {text r : String}
    (h : reformat mode text = some r) : matchesZoteroFormat text = true := by
  unfold reformat at h
  unfold matchesZoteroFormat
  cases hm : zoteroMatchL text.data with
  | none => rw [hm] at h; simp at h
  | some p => simp [hm]

/-- Path lemma: no clipboard text. -/
lemma processClipboard_none (mode : OutputMode) (ok : Bool) (cbs : List Callback)
    {st : PState} (hclip : st.clip = none) :
    processClipboard mode ok cbs st = (.unchanged, st, false, []) := by
  simp [processClipboard, hclip]

/-- Path lemma: empty or repeated clipboard text. -/
lemma processClipboard_stale (mode : OutputMode) (ok : Bool) (cbs : List Callback)
    {st : PState} {cur : String} (hclip : st.clip = some cur)
    (h : cur = "" ∨ cur = st.last) :
    processClipboard mode ok cbs st = (.unchanged, st, false, []) := by
  simp [processClipboard, hclip, h]

/-- Path lemma: new text that the pattern does not match. -/
lemma processClipboard_nomatch (mode : OutputMode) (ok : Bool) (cbs : List Callback)
    {st : PState} {cur : String} (hclip : st.clip = some cur)
    (hne : ¬(cur = "" ∨ cur = st.last)) (hm : matchesZoteroFormat cur = false) :
    processClipboard mode ok cbs st =
      (.notACitation, { last := cur, clip := st.clip }, false, []) := by
  simp [processClipboard, hclip, hne, hm]

/-- Path lemma: new text that matches and reformats to something new. -/
lemma processClipboard_reformat (mode : OutputMode) (ok : Bool) (cbs : List Callback)
    {st : PState} {cur ref : String} (hclip : st.clip = some cur)
    (hne : ¬(cur = "" ∨ cur = st.last)) (href : reformat mode cur = some ref)
    (hra : ref ≠ "" ∧ ref ≠ cur) :
    processClipboard mode ok cbs st =
      (.reformatted cur ref,
       { last := ref, clip := if ok = true then some ref else st.clip },
       if ok = true then false else true,
       runCallbacks cbs cur ref) := by
  have hm := reformat_match_isSome href
  cases ok with
  | true => simp [processClipboard, hclip, hne, hm, href, hra]
  | false => simp [processClipboard, hclip, hne, hm, href, hra]


set_option maxRecDepth 100000

/-! The claims. -/

/-- Claim C1: for every string matched by the citation grammar the output is
determined solely by the active mode — `PlainText` yields exactly the cleaned
title and `MarkdownReference` exactly `[title](link)` — and on the Example 1
input of the spec the two modes produce `loss-free balance routing` and
`[loss-free balance routing](zotero://open-pdf/...)` respectively. -/
theorem c1_mode_determinism :
    (∀ (text : String) (t l : List Char), zoteroMatchL text.data = some (t, l) →
      reformat .plainText text = some (cleanTitle (pyStrip ⟨t⟩)) ∧
      reformat .markdownReference text =
        some ("[" ++ cleanTitle (pyStrip ⟨t⟩) ++ "](" ++ pyStrip ⟨l⟩ ++ ")")) ∧
    reformat .plainText ex1 = some "loss-free balance routing" ∧
    reformat .markdownReference ex1 =
      some "[loss-free balance routing](zotero://open-pdf/library/items/NUG9I57I?page=2&annotation=FIFCZW5L)" := by
  refine ⟨?_, by rfl, by rfl⟩
  intro text t l h
  constructor
  · simp [reformat, h]
  · simp [reformat, h]

/-- Witness for C1, instantiating the universal part at the Example 1
input. -/
theorem c1_witness :
    reformat .plainText ex1 =
      some (cleanTitle (pyStrip ⟨"loss-free balance routing".data⟩)) :=
  (c1_mode_determinism.1 ex1 "loss-free balance routing".data ex1Link.data
    (by rfl)).1

/-- Claim C2 counterexample: a well-formed citation whose title part contains
a newline — the natural witness for the claimed existential — is not
recognised. -/
theorem c2_counterexample :
    matchesZoteroFormat "\"abc\ndef\" ([x](y)) ([pdf](l))" = false := by rfl

/-- Claim C2 (amended): recognition rejects embedded newlines in the title:
every accepted string has a captured title made of title-class characters
only, which excludes both the straight double-quote and the newline. -/
theorem c2_title_has_no_newline :
    ∀ (s t l : List Char), zoteroMatchL s = some (t, l) → t.all titleOk = true :=
  fun _ _ _ h => (zoteroMatchL_out h).1

/-- Witness for C2's amended theorem at the Example 1 input. -/
theorem c2_witness : ("loss-free balance routing".data).all titleOk = true :=
  c2_title_has_no_newline ex1.data "loss-free balance routing".data
    ex1Link.data (by rfl)

/-- Claim C3 counterexample: a title opening with a curly double quote and
closing with a straight single quote — quote marks from different families —
is stripped rather than returned unchanged. -/
theorem c3_counterexample :
    cleanTitle "“abc'" = "abc" ∧ ("“abc'" : String) ≠ "abc" := by
  constructor
  · rfl
  · decide

/-- Claim C3 (amended): one surrounding layer is stripped whenever the first
character is any opening-class quote and the last any closing-class quote
with a nonempty newline-free interior — the two ends need not belong to the
same family. -/
theorem c3_strip_any_mixed_pair :
    ∀ (o c : Char) (mid : List Char), isOpenQ o = true → isCloseQ c = true →
      mid ≠ [] → (∀ x ∈ mid, x ≠ '\n') →
      cleanTitle ⟨o :: (mid ++ [c])⟩ = ⟨mid⟩ := by
  intro o c mid ho hc hne hnl
  unfold cleanTitle
  have hdata : (⟨o :: (mid ++ [c])⟩ : String).data = o :: (mid ++ [c]) := rfl
  rw [hdata]
  unfold quotesMatchL
  cases mid with
  | nil => exact absurd rfl hne
  | cons m0 ms =>
    have hm0 : m0 ≠ '\n' := hnl m0 (List.mem_cons_self _ _)
    have hnotnl : notNL m0 = true := by simp [notNL, hm0]
    have hnl' : ∀ x ∈ ms, x ≠ '\n' := fun x hx => hnl x (List.mem_cons_of_mem _ hx)
    have hgo := qStripGo c hc ms [m0] hnl'
    simp only [clsOne, ho, if_true]
    have hcons : (m0 :: ms) ++ [c] = m0 :: (ms ++ [c]) := rfl
    rw [hcons]
    simp only [lazyPlusCap, hnotnl, if_true]
    rw [hgo]
    rfl

/-- Witness for C3's amended theorem: `“abc'` becomes `abc`. -/
theorem c3_witness :
    cleanTitle ⟨'“' :: ("abc".data ++ ['\''])⟩ = ⟨"abc".data⟩ :=
  c3_strip_any_mixed_pair '“' '\'' "abc".data (by decide) (by decide)
    (by decide) (by decide)

/-- Claim C4 (code bug): when the preference file holds a JSON value that is
not an object — here the array `[]` — `get_mode` raises `AttributeError`
(`.get` on a non-dict) instead of returning `PlainText` without throwing. -/
theorem c4_nondict_config_raises :
    getMode (.stored (.arr [])) = .error .attributeError := rfl

/-- Claim C5: after a `Reformatted` outcome the last-seen memory equals the
transformed text, and any call whose clipboard text is absent, empty, or
equal to the last-seen value returns `Unchanged` with no state change, no
clipboard write and no observer invocation. -/
theorem c5_idempotent :
    (∀ (mode : OutputMode) (ok : Bool) (cbs : List Callback) (st st' : PState)
        (o t' : String) (e : Bool)
        (tr : List (String × String × Except String Unit)),
        processClipboard mode ok cbs st = (.reformatted o t', st', e, tr) →
        st'.last = t') ∧
    (∀ (mode : OutputMode) (ok : Bool) (cbs : List Callback) (st : PState),
        st.clip = none ∨ st.clip = some "" ∨ st.clip = some st.last →
        processClipboard mode ok cbs st = (.unchanged, st, false, [])) := by
  constructor
  · intro mode ok cbs st st' o t' e tr h
    cases hclip : st.clip with
    | none =>
      rw [processClipboard_none mode ok cbs hclip] at h
      simp at h
    | some cur =>
      by_cases hstale : cur = "" ∨ cur = st.last
      · rw [processClipboard_stale mode ok cbs hclip hstale] at h
        simp at h
      · cases hm : matchesZoteroFormat cur with
        | false =>
          rw [processClipboard_nomatch mode ok cbs hclip hstale hm] at h
          simp at h
        | true =>
          cases href : reformat mode cur with
          | none =>
            have hu : processClipboard mode ok cbs st =
                (.unchanged, { last := cur, clip := st.clip }, false, []) := by
              simp [processClipboard, hclip, hstale, hm, href]
            rw [hu] at h
            simp at h
          | some ref =>
            by_cases hra : ref ≠ "" ∧ ref ≠ cur
            · rw [processClipboard_reformat mode ok cbs hclip hstale href hra] at h
              simp only [Prod.mk.injEq] at h
              obtain ⟨ho, hst, _, _⟩ := h
              injection ho with hco hct
              rw [← hst]
              exact hct
            · have hu : processClipboard mode ok cbs st =
                  (.unchanged, { last := cur, clip := st.clip }, false, []) := by
                simp [processClipboard, hclip, hstale, hm, href, hra]
              rw [hu] at h
              simp at h
  · intro mode ok cbs st hdisj
    rcases hdisj with h | h | h
    · exact processClipboard_none mode ok cbs h
    · exact processClipboard_stale mode ok cbs h (Or.inl rfl)
    · exact processClipboard_stale mode ok cbs h (Or.inr rfl)

/-- Witness for C5: a concrete reformat followed by the short-circuited
second call on its own output. -/
theorem c5_witness :
    (⟨"loss-free balance routing", some "loss-free balance routing"⟩ : PState).last =
      "loss-free balance routing" ∧
    processClipboard .plainText true []
        ⟨"loss-free balance routing", some "loss-free balance routing"⟩ =
      (.unchanged,
       ⟨"loss-free balance routing", some "loss-free balance routing"⟩,
       false, []) :=
  ⟨c5_idempotent.1 .plainText true [] ⟨"", some ex1⟩
      ⟨"loss-free balance routing", some "loss-free balance routing"⟩
      ex1 "loss-free balance routing" false [] (by rfl),
   c5_idempotent.2 .plainText true []
      ⟨"loss-free balance routing", some "loss-free balance routing"⟩
      (Or.inr (Or.inr rfl))⟩

/-- Claim C6: a new non-empty string that the grammar rejects produces
`NotACitation`, writes nothing to the clipboard, invokes no observer, and
updates the last-seen memory to that string. -/
theorem c6_not_a_citation :
    ∀ (mode : OutputMode) (ok : Bool) (cbs : List Callback) (st : PState)
      (cur : String), st.clip = some cur → cur ≠ "" → cur ≠ st.last →
      matchesZoteroFormat cur = false →
      processClipboard mode ok cbs st =
        (.notACitation, { last := cur, clip := st.clip }, false, []) := by
  intro mode ok cbs st cur hclip h1 h2 hm
  exact processClipboard_nomatch mode ok cbs hclip (by simp [h1, h2]) hm

/-- Witness for C6 on the spec's Example 3 input. -/
theorem c6_witness :
    processClipboard .plainText true [] ⟨"", some "This is just plain text"⟩ =
      (.notACitation,
       ⟨"This is just plain text", some "This is just plain text"⟩, false, []) :=
  c6_not_a_citation .plainText true [] ⟨"", some "This is just plain text"⟩
    "This is just plain text" rfl (by decide) (by decide) (by rfl)

/-- Claim C7: on a `Reformatted` outcome every registered observer is invoked
exactly once with `(original, transformed)` in registration order — the trace
is literally the registration list mapped over the invocation — so an
observer that raises neither prevents later observers from running nor
changes the outcome the caller receives. -/
theorem c7_observer_isolation :
    ∀ (mode : OutputMode) (ok : Bool) (cbs : List Callback) (st : PState)
      (cur ref : String), st.clip = some cur → cur ≠ "" → cur ≠ st.last →
      reformat mode cur = some ref → ref ≠ "" → ref ≠ cur →
      (processClipboard mode ok cbs st).1 = .reformatted cur ref ∧
      (processClipboard mode ok cbs st).2.2.2 =
        cbs.map (fun cb => (cur, ref, cb cur ref)) := by
  intro mode ok cbs st cur ref hclip h1 h2 href h3 h4
  have h := processClipboard_reformat mode ok cbs hclip (by simp [h1, h2]) href ⟨h3, h4⟩
  rw [h]
  exact ⟨rfl, runCallbacks_eq_map cbs cur ref⟩

/-- Witness for C7: with a raising observer between two normal ones, all
three are invoked once, in order, with the same pair. -/
theorem c7_witness :
    (processClipboard .plainText true [goodCb, badCb, goodCb]
        ⟨"", some ex1⟩).2.2.2 =
      [(ex1, "loss-free balance routing", Except.ok ()),
       (ex1, "loss-free balance routing", Except.error "boom"),
       (ex1, "loss-free balance routing", Except.ok ())] := by
  have h := c7_observer_isolation .plainText true [goodCb, badCb, goodCb]
    ⟨"", some ex1⟩ ex1 "loss-free balance routing" rfl (by decide) (by decide)
    (by rfl) (by decide) (by decide)
  rw [h.2]
  rfl

/-- Claim C8 counterexample: appending a trailing newline to the Example 1
citation is still recognised, because Python's `$` also matches just before
a final newline. -/
theorem c8_counterexample : matchesZoteroFormat (ex1 ++ "\n") = true := by rfl

/-- Claim C8 (amended): recognition is anchored at the start and, at the end,
up to Python's `$` semantics: every accepted string ends with `))` or with
`))` followed by a single newline.  Appending a trailing newline keeps a
match; other trailing characters make recognition fail only when no reparse
restores that shape: appending `x` or a second newline to the Example 1
citation fails, but appending `)` is still recognised, the lazy link capture
absorbing the extra parenthesis. -/
theorem c8_end_anchoring :
    (∀ (s t l : List Char), zoteroMatchL s = some (t, l) →
      [')', ')'] <:+ s ∨ [')', ')', '\n'] <:+ s) ∧
    matchesZoteroFormat (ex1 ++ "x") = false ∧
    matchesZoteroFormat (ex1 ++ "\n\n") = false ∧
    matchesZoteroFormat (ex1 ++ ")") = true :=
  ⟨fun _ _ _ h => (zoteroMatchL_out h).2, by rfl, by rfl, by rfl⟩

/-- Witness for C8's amended theorem at the Example 1 input. -/
theorem c8_witness :
    [')', ')'] <:+ ex1.data ∨ [')', ')', '\n'] <:+ ex1.data :=
  c8_end_anchoring.1 ex1.data "loss-free balance routing".data ex1Link.data
    (by rfl)

/-- Claim C9 (amended): when the clipboard write fails, the failure is logged
and non-fatal, but the cycle is not skipped: last-seen is still updated to
the transformed text and every observer is still notified (the clipboard
itself keeps its old contents, so the transformed text is lost rather than
retried). -/
theorem c9_write_failure_not_skipped :
    ∀ (mode : OutputMode) (cbs : List Callback) (st : PState) (cur ref : String),
      st.clip = some cur → cur ≠ "" → cur ≠ st.last →
      reformat mode cur = some ref → ref ≠ "" → ref ≠ cur →
      processClipboard mode false cbs st =
        (.reformatted cur ref, { last := ref, clip := st.clip }, true,
          runCallbacks cbs cur ref) ∧
      (runCallbacks cbs cur ref).length = cbs.length := by
  intro mode cbs st cur ref hclip h1 h2 href h3 h4
  have h := processClipboard_reformat mode false cbs hclip (by simp [h1, h2])
    href ⟨h3, h4⟩
  constructor
  · simpa using h
  · exact runCallbacks_length cbs cur ref

/-- Claim C9 counterexample: on the Example 1 input with a failing clipboard
write, the error is logged, yet last-seen becomes the transformed text and
the registered observer is invoked — the cycle is not skipped. -/
theorem c9_counterexample :
    (processClipboard .plainText false [goodCb] ⟨"", some ex1⟩).2.2.1 = true ∧
    (processClipboard .plainText false [goodCb] ⟨"", some ex1⟩).2.1.last =
      "loss-free balance routing" ∧
    (processClipboard .plainText false [goodCb] ⟨"", some ex1⟩).2.2.2.length = 1 := by
  refine ⟨?_, ?_, ?_⟩ <;> rfl

/-- Witness for C9's amended theorem. -/
theorem c9_witness :
    (runCallbacks [goodCb] ex1 "loss-free balance routing").length = 1 := by
  have h := c9_write_failure_not_skipped .plainText [goodCb] ⟨"", some ex1⟩ ex1
    "loss-free balance routing" rfl (by decide) (by decide) (by rfl) (by decide)
    (by decide)
  simpa using h.2

/-- Claim C10: `reformat` returns `None` exactly when the citation grammar
does not match; since the mode argument ranges over the two-valued
`OutputMode`, the fallthrough branch after a successful match is
unreachable. -/
theorem c10_reformat_none_iff :
    ∀ (mode : OutputMode) (text : String),
      reformat mode text = none ↔ zoteroMatchL text.data = none := by
  intro mode text
  cases hm : zoteroMatchL text.data with
  | none => simp [reformat, hm]
  | some p =>
    obtain ⟨t, l⟩ := p
    cases mode <;> simp [reformat, hm]

/-- Witness for C10 on the spec's Example 3 input. -/
theorem c10_witness : reformat .plainText "This is just plain text" = none :=
  (c10_reformat_none_iff .plainText "This is just plain text").mpr (by rfl)

end ZotClip
